import Mathlib

/-!
# RescuNet core — shallow embedding and verification

This file embeds the core data model and operations of the RescuNet backend
(`backend/app/cache.py`, `backend/app/utils.py`, `backend/app/models.py`,
`backend/router/python_router.py`, and the dispatch-relevant fragment of
`backend/app/main.py`) as executable Lean definitions, and proves the spec's
claims about them.

Modelling conventions:
* Python floats are modelled as `ℚ`; Python ints as `Int` (or `Nat` for list
  indices).
* External collaborators (networkx shortest paths, osmnx `nearest_edges`,
  shapely geometry operations, Python's salted string `hash`, the trigonometric
  `haversine_distance`) are oracles passed as parameters; the repository's own
  control flow and arithmetic around them is embedded faithfully.
* Fallible Python code (raising `TypeError`, `ZeroDivisionError`, or
  `HTTPException`) is modelled with `Except String`.
-/

namespace RescuNet

/-! ## Data model (backend/app/models.py) -/

/-- `NodeType` from models.py: survivor or pickup. -/
inductive PointKind where
  | survivor
  | pickup
deriving DecidableEq, Repr

/-- `NodeData` from models.py: a point request.  `urgency` and `count` are
`Optional[int]` (pydantic validation requires them only for survivors). -/
structure NodeData where
  id : Int
  x : ℚ
  y : ℚ
  type : PointKind
  urgency : Option Int
  count : Option Int
deriving DecidableEq, Repr

/-! ## Bounding-box cache (backend/app/cache.py) -/

/-- `ACCESS_TTL_SECONDS = 24 * 3600` from cache.py. -/
def ACCESS_TTL_SECONDS : ℚ := 24 * 3600

/-- `DOWNLOAD_TTL_SECONDS = 7 * 24 * 3600` from cache.py. -/
def DOWNLOAD_TTL_SECONDS : ℚ := 7 * 24 * 3600

/-- A row of the `graph_cache` sqlite table: key, opaque pickled graph blob,
and the two Unix timestamps. -/
structure CacheRecord where
  cache_key : String
  graph_blob : List Nat
  download_time : ℚ
  last_access : ℚ
deriving DecidableEq, Repr

/-- `cleanup_cache` from cache.py: the table is the list of records, and the
SQL `DELETE FROM graph_cache WHERE last_access < ? OR download_time < ?`
(with cutoffs `now - ACCESS_TTL_SECONDS` and `now - DOWNLOAD_TTL_SECONDS`)
keeps exactly the rows matching neither disjunct. -/
def cleanup_cache (now : ℚ) (table : List CacheRecord) : List CacheRecord :=
  let access_cutoff := now - ACCESS_TTL_SECONDS
  let download_cutoff := now - DOWNLOAD_TTL_SECONDS
  table.filter fun r =>
    !(decide (r.last_access < access_cutoff) || decide (r.download_time < download_cutoff))

/-! ## Node deduplication (backend/app/utils.py, `deduplicate_nodes`)

`haversine_distance` is trigonometric, so it is taken as an oracle
`hav : ℚ → ℚ → ℚ → ℚ → ℚ` with argument order `(lat1, lon1, lat2, lon2)`
matching the source signature. -/

/-- The merge body of `deduplicate_nodes` for one duplicate pair:

    existing.urgency = max(existing.urgency, node.urgency if node.urgency is not None else 0.0)
    existing.count += node.count

Python raises `TypeError` when `existing.urgency` is `None` (comparing `None`
with a number), and when `existing.count` or `node.count` is `None`
(`None + int` / `int + None`); the urgency line runs first. -/
def mergeNode (existing node : NodeData) : Except String NodeData :=
  match existing.urgency with
  | none => .error "TypeError"
  | some eu =>
    let incoming : Int := match node.urgency with
      | some nu => nu
      | none => 0
    match existing.count, node.count with
    | some ec, some nc =>
        .ok { existing with urgency := some (max eu incoming), count := some (ec + nc) }
    | _, _ => .error "TypeError"

/-- Inner `for existing in unique_nodes` loop of `deduplicate_nodes`: scan the
kept list in order, and merge `node` into the first kept point closer than
10 m.  Returns `none` when no kept point is within 10 m. -/
def tryMergeNode (hav : ℚ → ℚ → ℚ → ℚ → ℚ) (node : NodeData) :
    List NodeData → Option (Except String (List NodeData))
  | [] => none
  | existing :: rest =>
    if hav node.y node.x existing.y existing.x < 10 then
      some ((mergeNode existing node).map (· :: rest))
    else
      (tryMergeNode hav node rest).map fun r => r.map (existing :: ·)

/-- Outer loop of `deduplicate_nodes`, carrying the kept list `unique_nodes`. -/
def dedupLoop (hav : ℚ → ℚ → ℚ → ℚ → ℚ) :
    List NodeData → List NodeData → Except String (List NodeData)
  | unique_nodes, [] => .ok unique_nodes
  | unique_nodes, node :: rest =>
    match tryMergeNode hav node unique_nodes with
    | none => dedupLoop hav (unique_nodes ++ [node]) rest
    | some (.error e) => .error e
    | some (.ok merged) => dedupLoop hav merged rest

/-- `deduplicate_nodes` from utils.py. -/
def deduplicate_nodes (hav : ℚ → ℚ → ℚ → ℚ → ℚ) (nodes : List NodeData) :
    Except String (List NodeData) :=
  dedupLoop hav [] nodes

/-! ## Road graph model

A networkx `MultiDiGraph`: nodes are `(id, x, y)`; edges are ordered, keyed by
`(u, v, key)`, and carry an attribute dictionary.  The attribute keys the core
reads (`length`, `state`, `geometry`, `travel_cost`) are modelled as `Option`
fields: `none` means the key is absent from the dict. -/

/-- Edge attribute dictionary (the keys the core code reads). -/
structure EdgeData where
  length : Option ℚ
  state : Option String
  geometry : Option (List (ℚ × ℚ))
  travel_cost : Option ℚ
deriving DecidableEq, Repr

/-- One directed edge of the multigraph. -/
structure GEdge where
  u : Int
  v : Int
  key : Int
  data : EdgeData
deriving DecidableEq, Repr

/-- A directed multigraph.  List order models Python dict insertion order
(relevant for `list(G[u][v].keys())[0]`). -/
structure Graph where
  nodes : List (Int × ℚ × ℚ)
  edges : List GEdge
deriving DecidableEq, Repr

/-- `G.nodes[n]['x']`: x coordinate (longitude) of a node.  The callers below
only look up nodes that are present (they come from edges of the graph), so a
missing node defaults to `0` rather than modelling `KeyError`. -/
def nodeX (G : Graph) (n : Int) : ℚ :=
  match G.nodes.find? fun p => p.1 == n with
  | some p => p.2.1
  | none => 0

/-- `G.nodes[n]['y']`: y coordinate (latitude) of a node. -/
def nodeY (G : Graph) (n : Int) : ℚ :=
  match G.nodes.find? fun p => p.1 == n with
  | some p => p.2.2
  | none => 0

/-- `G.has_edge(u, v, key)`. -/
def hasEdgeKey (G : Graph) (u v key : Int) : Bool :=
  G.edges.any fun e => e.u == u && e.v == v && e.key == key

/-- `G[u][v]` as a list of parallel edges in insertion order. -/
def edgesBetween (G : Graph) (u v : Int) : List GEdge :=
  G.edges.filter fun e => e.u == u && e.v == v

/-- `G.has_edge(u, v)` (any key). -/
def hasEdgeAny (G : Graph) (u v : Int) : Bool :=
  G.edges.any fun e => e.u == u && e.v == v

/-- `G.get_edge_data(u, v, key)`. -/
def getEdgeData (G : Graph) (u v key : Int) : Option GEdge :=
  G.edges.find? fun e => e.u == u && e.v == v && e.key == key

/-! ## Edge-state editing (backend/app/utils.py, `edit_edges`) -/

/-- `EdgeModification` from models.py. -/
structure EdgeMod where
  u : Int
  v : Int
  key : Int
  state : String
deriving DecidableEq, Repr

/-- `set_edge_attributes(G, {(u, v, key): {"state": state}})`. -/
def setStateKey (G : Graph) (u v key : Int) (state : String) : Graph :=
  { G with
    edges := G.edges.map fun e =>
      if e.u == u && e.v == v && e.key == key then
        { e with data := { e.data with state := some state } }
      else e }

/-- `for k in G[v][u]: set_edge_attributes(G, {(v, u, k): {"state": state}})`:
set the state on every parallel edge from `u` to `v`. -/
def setStateAll (G : Graph) (u v : Int) (state : String) : Graph :=
  { G with
    edges := G.edges.map fun e =>
      if e.u == u && e.v == v then
        { e with data := { e.data with state := some state } }
      else e }

/-- One iteration of the `for edge in edges` loop of `edit_edges`. -/
def applyMod (G : Graph) (m : EdgeMod) : Graph :=
  let G1 := if hasEdgeKey G m.u m.v m.key then setStateKey G m.u m.v m.key m.state else G
  if hasEdgeAny G1 m.v m.u then setStateAll G1 m.v m.u m.state else G1

/-- `edit_edges` from utils.py. -/
def edit_edges (G : Graph) (mods : List EdgeMod) : Graph :=
  mods.foldl applyMod G

/-! ## Edge splitting (backend/app/utils.py, `split_edge_at_point`)

Shapely's geometric operations on polylines (`line.project`, `line.interpolate`,
`substring`, `line.length`) involve square roots and are taken as an oracle,
together with the trigonometric `haversine_distance`. -/

/-- Oracle bundling the external geometry collaborators. -/
structure GeomOracle where
  /-- `line.project(p)`: scalar distance along the polyline of the projection. -/
  project : List (ℚ × ℚ) → ℚ × ℚ → ℚ
  /-- `line.interpolate(d)`: the point at distance `d` along the polyline. -/
  interpolate : List (ℚ × ℚ) → ℚ → ℚ × ℚ
  /-- `shapely.ops.substring(line, a, b)`. -/
  substr : List (ℚ × ℚ) → ℚ → ℚ → List (ℚ × ℚ)
  /-- `line.length`. -/
  lineLen : List (ℚ × ℚ) → ℚ
  /-- `haversine_distance(lat1, lon1, lat2, lon2)` from utils.py. -/
  hav : ℚ → ℚ → ℚ → ℚ → ℚ

/-- `G.add_node(n, x=x, y=y)`: update coordinates if present, else append. -/
def addNode (G : Graph) (n : Int) (x y : ℚ) : Graph :=
  if G.nodes.any fun p => p.1 == n then
    { G with nodes := G.nodes.map fun p => if p.1 == n then (n, x, y) else p }
  else
    { G with nodes := G.nodes ++ [(n, x, y)] }

/-- `G.add_edge(u, v, key=k, **attrs)`: replace the data if the keyed edge
exists, else append it. -/
def addEdge (G : Graph) (u v key : Int) (d : EdgeData) : Graph :=
  if hasEdgeKey G u v key then
    { G with
      edges := G.edges.map fun e =>
        if e.u == u && e.v == v && e.key == key then { e with data := d } else e }
  else
    { G with edges := G.edges ++ [⟨u, v, key, d⟩] }

/-- `G.remove_edge(u, v, key)`: drop the keyed edge. -/
def removeEdge (G : Graph) (u v key : Int) : Graph :=
  { G with edges := G.edges.filter fun e => !(e.u == u && e.v == v && e.key == key) }

/-- The graph-rebuilding body of `split_edge_at_point` (utils.py): reorient
the geometry towards `u`, project the point, insert the new node, split the
geometry into two curvature-preserving halves, add the two new edges with
recomputed haversine lengths, and remove the original edge. -/
def splitEdgeGraph (geo : GeomOracle) (G : Graph) (u v key : Int)
    (data : EdgeData) (new_node_id : Int) (point_coords : ℚ × ℚ) : Graph :=
    -- geometry, or a straight line between the endpoint nodes
    let line := match data.geometry with
      | some g => g
      | none => [(nodeX G u, nodeY G u), (nodeX G v, nodeY G v)]
    let u_x := nodeX G u
    let u_y := nodeY G u
    let start := line.headD (0, 0)
    let dist_start := (u_x - start.1) ^ 2 + (u_y - start.2) ^ 2
    let endp := line.getLastD (0, 0)
    let dist_end := (u_x - endp.1) ^ 2 + (u_y - endp.2) ^ 2
    -- reverse the geometry when its end is closer to u than its start
    let line := if dist_end < dist_start then line.reverse else line
    let dist_along := geo.project line point_coords
    let new_point := geo.interpolate line dist_along
    let G1 := addNode G new_node_id new_point.1 new_point.2
    let geom_u_new := geo.substr line 0 dist_along
    let geom_new_v := geo.substr line dist_along (geo.lineLen line)
    let len_1 := geo.hav (nodeY G1 u) (nodeX G1 u) new_point.2 new_point.1
    let attr1 := { data with length := some len_1, geometry := some geom_u_new }
    let G2 := addEdge G1 u new_node_id 0 attr1
    let len_2 := geo.hav new_point.2 new_point.1 (nodeY G2 v) (nodeX G2 v)
    let attr2 := { data with length := some len_2, geometry := some geom_new_v }
    let G3 := addEdge G2 new_node_id v 0 attr2
    removeEdge G3 u v key

/-- `split_edge_at_point` from utils.py: `None` when the edge is absent, else
the rebuilt graph and the synthetic node id `hash % 10^7 * -1`.  `mkId u v key`
stands for the value of Python's salted `hash(f"{u}-{v}-{key}-{time()}")`: an
arbitrary integer determined by the interpreter's hash seed and the wall
clock, so it is an oracle parameter.  `%` on `Int` is Euclidean (`emod`),
matching Python's nonnegative-for-positive-modulus `%`. -/
def split_edge_at_point (geo : GeomOracle) (mkId : Int → Int → Int → Int)
    (G : Graph) (u v key : Int) (point_coords : ℚ × ℚ) : Graph × Option Int :=
  match getEdgeData G u v key with
  | some e =>
    let new_node_id := mkId u v key % 10000000 * (-1)
    (splitEdgeGraph geo G u v key e.data new_node_id point_coords, some new_node_id)
  | none => (G, none)

/-! ## Point integration (backend/app/utils.py, `integrate_nodes_into_graph`)

osmnx `nearest_edges(G_undir, x, y)` is an oracle `ne : ℚ → ℚ → Int × Int × Int`
returning the `(u, v, key)` of the nearest edge in the undirected view. -/

/-- The snapped-node record `{"graph_id": ..., "req": ...}`. -/
structure SnappedNode where
  graph_id : Int
  req : NodeData
deriving DecidableEq, Repr

/-- Body of the `for node_req in nodes` loop of `integrate_nodes_into_graph`,
for one point request.  In the split branch, Python computes
`final_node_id = new_id or u`: both `None` and `0` are falsy, so a split that
returns node id `0` also falls back to `u`. -/
def integrateOne (geo : GeomOracle) (mkId : Int → Int → Int → Int)
    (ne : ℚ → ℚ → Int × Int × Int) (G : Graph) (node_req : NodeData) :
    Graph × SnappedNode :=
  let t := ne node_req.x node_req.y
  let u := t.1
  let v := t.2.1
  let key := t.2.2
  -- edge_data = G.get_edge_data(u, v, key) or G.get_edge_data(v, u, key)
  -- (the attribute dicts of real edges are nonempty, hence truthy)
  let ed0 := match getEdgeData G u v key with
    | some e => some e.data
    | none => (getEdgeData G v u key).map (·.data)
  -- fallback: any key between u,v; then any key between v,u; then clear
  let edge_data := match ed0 with
    | some d => d
    | none =>
      match edgesBetween G u v with
      | e :: _ => e.data
      | [] =>
        match edgesBetween G v u with
        | e :: _ => e.data
        | [] => { length := none, state := some "clear", geometry := none, travel_cost := none }
  let state := edge_data.state.getD "clear"
  let dist_u := geo.hav node_req.y node_req.x (nodeY G u) (nodeX G u)
  let dist_v := geo.hav node_req.y node_req.x (nodeY G v) (nodeX G v)
  if dist_u < 50 then (G, ⟨u, node_req⟩)
  else if dist_v < 50 then (G, ⟨v, node_req⟩)
  else if state == "blocked" then
    if dist_u < dist_v then (G, ⟨u, node_req⟩) else (G, ⟨v, node_req⟩)
  else
    let r := split_edge_at_point geo mkId G u v key (node_req.x, node_req.y)
    let G1 := r.1
    let new_id := r.2
    let G2 :=
      if hasEdgeAny G1 v u then
        match edgesBetween G1 v u with
        | e :: _ => (split_edge_at_point geo mkId G1 v u e.key (node_req.x, node_req.y)).1
        | [] => G1
      else G1
    let final_node_id := match new_id with
      | some i => if i == 0 then u else i
      | none => u
    (G2, ⟨final_node_id, node_req⟩)

/-- `integrate_nodes_into_graph` from utils.py. -/
def integrate_nodes_into_graph (geo : GeomOracle) (mkId : Int → Int → Int → Int)
    (ne : ℚ → ℚ → Int × Int × Int) (G : Graph) (nodes : List NodeData) :
    Graph × List SnappedNode :=
  nodes.foldl
    (fun acc node_req =>
      let r := integrateOne geo mkId ne acc.1 node_req
      (r.1, acc.2 ++ [r.2]))
    (G, [])

/-! ## Routing weights (backend/app/main.py, `infer_routes`, lines 431-466)

`extract_pyg_data` returns `ordered_edges`, the graph's edges in iteration
order, and the GNN produces one probability per position; `probs : Nat → ℚ`
is that per-position output (an oracle for the learned model). -/

/-- The GNN branch: for the `i`-th edge of `ordered_edges`,
`travel_cost = length * base_mult * (1.0 - prob * 0.8)` with
`base_mult` 10000 for blocked, 5 for partial, else 1, and defaults
`length = 1.0`, `state = 'clear'`. -/
def gnnWeightEdge (probs : Nat → ℚ) (i : Nat) (e : GEdge) : GEdge :=
  let length := e.data.length.getD 1
  let state := e.data.state.getD "clear"
  let base_mult : ℚ := if state == "blocked" then 10000 else if state == "partial" then 5 else 1
  let neural_discount : ℚ := 1 - probs i * (8 / 10)
  { e with data := { e.data with travel_cost := some (length * base_mult * neural_discount) } }

/-- `for i, (u, v, k) in enumerate(ordered_edges)` with the GNN formula. -/
def applyWeightsGNN (probs : Nat → ℚ) (i : Nat) : List GEdge → List GEdge
  | [] => []
  | e :: rest => gnnWeightEdge probs i e :: applyWeightsGNN probs (i + 1) rest

/-- The fallback branch (GNN failed or model absent):
`mult = 10000 if state == 'blocked' else (5 if state == 'partial' else 1)` and
`travel_cost = length * mult`, with defaults `length = 1`, `state = 'clear'`. -/
def fallbackWeightEdge (e : GEdge) : GEdge :=
  let length := e.data.length.getD 1
  let state := e.data.state.getD "clear"
  let mult : ℚ := if state == "blocked" then 10000 else if state == "partial" then 5 else 1
  { e with data := { e.data with travel_cost := some (length * mult) } }

/-- The weight-assignment fragment of `infer_routes`: when the model is loaded
and inference succeeds, `gnnProbs = some probs`; when the model is `None` or
the GNN call raised, `gnnProbs = none` and every edge gets the fallback
weight. -/
def inferWeights (gnnProbs : Option (Nat → ℚ)) (G : Graph) : Graph :=
  match gnnProbs with
  | some probs => { G with edges := applyWeightsGNN probs 0 G.edges }
  | none => { G with edges := G.edges.map fallbackWeightEdge }

/-- Modelled from the spec (§4.4 cost model): `travel_cost(edge) =
length × state_multiplier × discount`, with `state_multiplier` 1 for `clear`,
5 for `partial`, 10000 for `blocked`, and `discount = 1 − 0.8 × p` when a
traversal probability `p` is available for the edge, else `1`.  Used only to
compare the code's three weighting paths against the spec formula. -/
def travelCostSpec (length : ℚ) (state : String) (p : Option ℚ) : ℚ :=
  let state_multiplier : ℚ :=
    if state = "clear" then 1 else if state = "partial" then 5 else 10000
  let discount : ℚ := match p with
    | some pr => 1 - (8 / 10) * pr
    | none => 1
  length * state_multiplier * discount

/-! ## Dispatch engine (backend/router/python_router.py, `solve_routes`)

networkx shortest paths are oracles: `dist a b` models
`shortest_path_length(G, a, b, weight='travel_cost')` with `none` for
`NetworkXNoPath`, and `spath a b` models `shortest_path(G, a, b, ...)`. -/

/-- A vehicle of `pickup_vec`. -/
structure Vehicle where
  id : Nat
  current_node : Int
  path : List Int
  total_distance : ℚ
deriving DecidableEq, Repr

/-- One entry of `survivors` as passed to the solver: the snapped graph node
plus the request's urgency and count (present and already validated for
survivor requests). -/
structure SolverSurvivor where
  graph_id : Int
  urgency : Int
  count : Int
deriving DecidableEq, Repr

/-- A reachable `(vehicle, survivor)` pair considered in one round:
vehicle index, survivor index, score, and the path distance. -/
structure Cand where
  vi : Nat
  si : Nat
  score : ℚ
  d : ℚ
deriving DecidableEq, Repr

/-- The candidates contributed by one vehicle, scanning the survivors in
order (`si0` is the index of the first survivor in `rest`):
pairs with `current_pos == target_id` or no path are skipped, the rest are
scored `(total_distance + dist) / (urgency² + count)`. -/
def candidatesFor (dist : Int → Int → Option ℚ) (veh : Vehicle) (vi : Nat) :
    Nat → List SolverSurvivor → List Cand
  | _, [] => []
  | si0, s :: rest =>
    let here : List Cand :=
      if veh.current_node == s.graph_id then []
      else
        match dist veh.current_node s.graph_id with
        | some d =>
          [⟨vi, si0, (veh.total_distance + d) / (((s.urgency : ℚ)) ^ 2 + (s.count : ℚ)), d⟩]
        | none => []
    here ++ candidatesFor dist veh vi (si0 + 1) rest

/-- All candidates of one round, vehicles outer and survivors inner, in
iteration order (`vi0` is the index of the first vehicle in the list). -/
def candidatesFrom (dist : Int → Int → Option ℚ) :
    Nat → List Vehicle → List SolverSurvivor → List Cand
  | _, [], _ => []
  | vi0, veh :: rest, survivors =>
    candidatesFor dist veh vi0 0 survivors ++ candidatesFrom dist (vi0 + 1) rest survivors

/-- All scored `(vehicle, survivor)` pairs of one round. -/
def candidates (dist : Int → Int → Option ℚ) (vehicles : List Vehicle)
    (survivors : List SolverSurvivor) : List Cand :=
  candidatesFrom dist 0 vehicles survivors

/-- The running-minimum selection: starting from `best_global_score = inf`,
a candidate replaces the best exactly when its score is strictly smaller, so
the first candidate always replaces `inf` and ties keep the earlier pair. -/
def selectBest : List Cand → Option Cand
  | [] => none
  | c :: cs => some (cs.foldl (fun best c2 => if c2.score < best.score then c2 else best) c)

/-- Whether some evaluated pair divides by `urgency² + count = 0`
(Python would raise `ZeroDivisionError` while scoring that pair). -/
def hasZeroDenom (dist : Int → Int → Option ℚ) (vehicles : List Vehicle)
    (survivors : List SolverSurvivor) : Bool :=
  vehicles.any fun veh => survivors.any fun s =>
    !(veh.current_node == s.graph_id) && (dist veh.current_node s.graph_id).isSome &&
      (s.urgency ^ 2 + s.count == 0)

/-- State update once a winner `(vi, si)` with segment distance `d` is found:
extend the winner's path by the shortest path minus its first node, move it to
the survivor's node, and add the distance. -/
def applyAssign (spath : Int → Int → List Int) (vehicles : List Vehicle)
    (vi si : Nat) (d : ℚ) (survivors : List SolverSurvivor) : List Vehicle :=
  match vehicles[vi]?, survivors[si]? with
  | some veh, some s =>
    let path_segment := spath veh.current_node s.graph_id
    let newPath := if 1 < path_segment.length then veh.path ++ path_segment.tail else veh.path
    vehicles.set vi
      { veh with path := newPath, current_node := s.graph_id,
                 total_distance := veh.total_distance + d }
  | _, _ => vehicles

/-- The `while remaining_survivors` loop.  Each successful round removes one
survivor, so fuel `remaining_survivors.length` is exact.  A zero denominator
encountered while scoring aborts the call (`ZeroDivisionError`); if no pair is
reachable (`best_vehicle_idx == -1`) the loop breaks. -/
def assignLoop (dist : Int → Int → Option ℚ) (spath : Int → Int → List Int) :
    Nat → List Vehicle → List SolverSurvivor →
    Except String (List Vehicle × List SolverSurvivor)
  | 0, vehicles, survivors => .ok (vehicles, survivors)
  | fuel + 1, vehicles, survivors =>
    if survivors.isEmpty then .ok (vehicles, survivors)
    else if hasZeroDenom dist vehicles survivors then .error "ZeroDivisionError"
    else
      match selectBest (candidates dist vehicles survivors) with
      | none => .ok (vehicles, survivors)
      | some c =>
        assignLoop dist spath fuel (applyAssign spath vehicles c.vi c.si c.d survivors)
          (survivors.eraseIdx c.si)

/-- `pickup_vec` initialisation: one vehicle per pickup id. -/
def initVehicles (pickups_ids : List Int) : List Vehicle :=
  ((List.range pickups_ids.length).zip pickups_ids).map fun p =>
    ⟨p.1, p.2, [p.2], 0⟩

/-- The return-to-pickup pass for one used vehicle: nearest pickup by path
length (`except: continue` absorbs every failure), extend by the return path
minus its first node when a nontrivial return path was found. -/
def returnForVehicle (dist : Int → Int → Option ℚ) (spath : Int → Int → List Int)
    (pickups_ids : List Int) (veh : Vehicle) : List Int :=
  let best := pickups_ids.foldl
    (fun acc pid =>
      match dist veh.current_node pid with
      | none => acc
      | some d =>
        match acc with
        | none => some (d, spath veh.current_node pid)
        | some bp => if d < bp.1 then some (d, spath veh.current_node pid) else acc)
    none
  match best with
  | some bp => if 1 < bp.2.length then veh.path ++ bp.2.tail else veh.path
  | none => veh.path

/-- The output pass: vehicles with a trivial single-node path are skipped, the
others get their return path appended. -/
def returnPhase (dist : Int → Int → Option ℚ) (spath : Int → Int → List Int)
    (pickups_ids : List Int) (vehicles : List Vehicle) : List (List Int) :=
  (vehicles.filter fun veh => decide (1 < veh.path.length)).map
    (returnForVehicle dist spath pickups_ids)

/-- `solve_routes` from python_router.py. -/
def solve_routes (dist : Int → Int → Option ℚ) (spath : Int → Int → List Int)
    (survivors : List SolverSurvivor) (pickups_ids : List Int) :
    Except String (List (List Int)) :=
  match assignLoop dist spath survivors.length (initVehicles pickups_ids) survivors with
  | .error e => .error e
  | .ok r => .ok (returnPhase dist spath pickups_ids r.1)

/-- The dispatch fragment of `infer_routes` (main.py lines 469-524): reject an
empty pickup list with `HTTPException(400, "No pickups defined.")` before
invoking the solver. -/
def dispatch (dist : Int → Int → Option ℚ) (spath : Int → Int → List Int)
    (survivors : List SolverSurvivor) (pickups_ids : List Int) :
    Except String (List (List Int)) :=
  if pickups_ids.isEmpty then .error "No pickups defined."
  else solve_routes dist spath survivors pickups_ids

/-! ## Cache key derivation (backend/app/cache.py, `normalize_bbox`, `make_bbox_key`)

`hashlib.sha1` is modelled by an RFC 3174 SHA-1 implementation over byte lists
(`Nat` values below 256), with 32-bit words as `Nat` modulo `2^32`. -/

/-- Truncate to a 32-bit word. -/
def w32 (n : Nat) : Nat := n % 4294967296

/-- Left rotation of a 32-bit word by `b` bits (`0 < b < 32`, `n < 2^32`). -/
def rotl (b n : Nat) : Nat := n % 2 ^ (32 - b) * 2 ^ b + n / 2 ^ (32 - b)

/-- SHA-1 round constant. -/
def sha1K (i : Nat) : Nat :=
  if i < 20 then 1518500249
  else if i < 40 then 1859775393
  else if i < 60 then 2400959708
  else 3395469782

/-- SHA-1 round function. -/
def sha1F (i b c d : Nat) : Nat :=
  if i < 20 then Nat.lor (Nat.land b c) (Nat.land (Nat.xor b 4294967295) d)
  else if i < 40 then Nat.xor (Nat.xor b c) d
  else if i < 60 then Nat.lor (Nat.lor (Nat.land b c) (Nat.land b d)) (Nat.land c d)
  else Nat.xor (Nat.xor b c) d

/-- Message-schedule extension, on the reversed word list (most recent word
first): `w[i] = rotl1 (w[i-3] xor w[i-8] xor w[i-14] xor w[i-16])`. -/
def extendWords : Nat → List Nat → List Nat
  | 0, ws => ws
  | n + 1, ws =>
    extendWords n
      (rotl 1 (Nat.xor (Nat.xor (ws.getD 2 0) (ws.getD 7 0))
        (Nat.xor (ws.getD 13 0) (ws.getD 15 0))) :: ws)

/-- Big-endian bytes to 32-bit words. -/
def bytesToWords : List Nat → List Nat
  | b0 :: b1 :: b2 :: b3 :: rest => (((b0 * 256 + b1) * 256 + b2) * 256 + b3) :: bytesToWords rest
  | _ => []

/-- `k`-byte big-endian encoding of `n`. -/
def beBytes : Nat → Nat → List Nat
  | 0, _ => []
  | k + 1, n => beBytes k (n / 256) ++ [n % 256]

/-- The 80 compression rounds, folding over `(round index, schedule word)`. -/
def sha1Rounds : List (Nat × Nat) → Nat × Nat × Nat × Nat × Nat → Nat × Nat × Nat × Nat × Nat
  | [], st => st
  | (i, w) :: rest, (a, b, c, d, e) =>
    sha1Rounds rest (w32 (rotl 5 a + sha1F i b c d + e + sha1K i + w), a, rotl 30 b, c, d)

/-- Process one 64-byte chunk. -/
def sha1Chunk (h : Nat × Nat × Nat × Nat × Nat) (chunk : List Nat) :
    Nat × Nat × Nat × Nat × Nat :=
  let ws := (extendWords 64 (bytesToWords chunk).reverse).reverse
  let r := sha1Rounds ((List.range 80).zip ws) h
  (w32 (h.1 + r.1), w32 (h.2.1 + r.2.1), w32 (h.2.2.1 + r.2.2.1),
    w32 (h.2.2.2.1 + r.2.2.2.1), w32 (h.2.2.2.2 + r.2.2.2.2))

/-- The `0x80` byte, zero padding to 56 mod 64, and the 8-byte bit length. -/
def sha1Pad (msg : List Nat) : List Nat :=
  msg ++ [128] ++ List.replicate ((120 - (msg.length + 1) % 64) % 64) 0
    ++ beBytes 8 (8 * msg.length)

/-- Split into 64-byte chunks. -/
def chunks64 : List Nat → List (List Nat)
  | [] => []
  | b :: rest => ((b :: rest).take 64) :: chunks64 ((b :: rest).drop 64)
termination_by l => l.length
decreasing_by simp only [List.length_drop, List.length_cons]; omega

/-- The five 32-bit words of the SHA-1 digest. -/
def sha1Digest (msg : List Nat) : Nat × Nat × Nat × Nat × Nat :=
  (chunks64 (sha1Pad msg)).foldl sha1Chunk
    (1732584193, 4023233417, 2562383102, 271733878, 3285377520)

/-- Lowercase hexadecimal digit. -/
def hexDigit (n : Nat) : Char :=
  if n < 10 then Char.ofNat (48 + n) else Char.ofNat (87 + n)

/-- Fixed-width lowercase hexadecimal rendering (`k` digits). -/
def hexFixed : Nat → Nat → List Char
  | 0, _ => []
  | k + 1, n => hexFixed k (n / 16) ++ [hexDigit (n % 16)]

/-- `sha1(...).hexdigest()`: 5 words, 8 hex characters each. -/
def sha1Hex (msg : List Nat) : String :=
  let h := sha1Digest msg
  ⟨hexFixed 8 h.1 ++ hexFixed 8 h.2.1 ++ hexFixed 8 h.2.2.1
    ++ hexFixed 8 h.2.2.2.1 ++ hexFixed 8 h.2.2.2.2⟩

/-- `raw.encode()`: the bbox strings are ASCII, where UTF-8 bytes coincide
with the code points. -/
def asciiBytes (s : String) : List Nat := s.data.map Char.toNat

/-- `round(x, 5)`: Python rounds half to even.  Bounding-box fields are
modelled as `ℚ`; the claim about keys is conditioned on equal rounded values,
so only determinism of the rounding matters. -/
def pyRound5 (x : ℚ) : ℚ :=
  let y := x * 100000
  let f : Int := Int.floor y
  let r := y - (f : ℚ)
  let n : Int :=
    if r < 1 / 2 then f
    else if 1 / 2 < r then f + 1
    else if f % 2 = 0 then f else f + 1
  (n : ℚ) / 100000

/-- `normalize_bbox` from cache.py. -/
def normalize_bbox (north south east west : ℚ) : ℚ × ℚ × ℚ × ℚ :=
  (pyRound5 north, pyRound5 south, pyRound5 east, pyRound5 west)

/-- The f-string `f"{n},{s},{e},{w}"`.  Python's float repr is a function of
the float value; `ℚ`'s canonical rendering stands in for it, and the theorems
only rely on it being a function. -/
def bboxRaw (q : ℚ × ℚ × ℚ × ℚ) : String :=
  toString q.1 ++ "," ++ toString q.2.1 ++ "," ++ toString q.2.2.1 ++ "," ++ toString q.2.2.2

/-- `make_bbox_key` from cache.py. -/
def make_bbox_key (north south east west : ℚ) : String :=
  sha1Hex (asciiBytes (bboxRaw (normalize_bbox north south east west)))

/-! ## Concrete instances for scenarios, counterexamples and witnesses -/

/-- Dispatch scenario of the spec: survivor S1 with urgency 5, count 1,
snapped to node 2. -/
def sc1S1 : SolverSurvivor := ⟨2, 5, 1⟩

/-- Dispatch scenario: survivor S2 with urgency 1, count 10, snapped to
node 3. -/
def sc1S2 : SolverSurvivor := ⟨3, 1, 10⟩

/-- Shortest-path length oracle for the scenario: pickup node 1, survivor
nodes 2 and 3, every pair at `travel_cost` distance 100. -/
def sc1Dist : Int → Int → Option ℚ := fun a b =>
  if a == b then some 0
  else if (1 ≤ a && a ≤ 3) && (1 ≤ b && b ≤ 3) then some 100
  else none

/-- Shortest-path oracle for the scenario: direct edges. -/
def sc1Spath : Int → Int → List Int := fun a b => if a == b then [a] else [a, b]

/-- A distance oracle with no path anywhere (a fully disconnected survivor). -/
def noPathDist : Int → Int → Option ℚ := fun _ _ => none

/-- Trivial geometry oracle for concrete split/integrate runs. -/
def trivGeo : GeomOracle :=
  ⟨fun _ _ => 0, fun _ _ => (0, 0), fun _ _ _ => [], fun _ => 0, fun _ _ _ _ => 0⟩

/-- Geometry oracle whose haversine reports 10 m everywhere (for the
endpoint-snap witness). -/
def snapGeo : GeomOracle :=
  ⟨fun _ _ => 0, fun _ _ => (0, 0), fun _ _ _ => [], fun _ => 0, fun _ _ _ _ => 10⟩

/-- A two-node, one-edge graph. -/
def twoNodeGraph : Graph :=
  ⟨[(1, 0, 0), (2, 1, 0)], [⟨1, 2, 0, ⟨some 100, none, none, none⟩⟩]⟩

/-- A graph with an edge (1,2,0) and two reverse parallel edges (2,1,0) and
(2,1,1). -/
def parallelGraph : Graph :=
  ⟨[(1, 0, 0), (2, 1, 0)],
    [⟨1, 2, 0, ⟨some 100, none, none, none⟩⟩,
     ⟨2, 1, 0, ⟨some 100, some "clear", none, none⟩⟩,
     ⟨2, 1, 1, ⟨some 120, none, none, none⟩⟩]⟩

/-- A hash oracle hitting a multiple of `10^7` (Python's salted string hash
ranges over 64-bit values, so such outcomes exist). -/
def collidingHash : Int → Int → Int → Int := fun _ _ _ => 10000000

/-- An ordinary hash oracle outcome. -/
def plainHash : Int → Int → Int → Int := fun _ _ _ => 123

/-- `nearest_edges` oracle always answering the edge (1,2,0). -/
def neFixed : ℚ → ℚ → Int × Int × Int := fun _ _ => (1, 2, 0)

/-- A survivor point request at the origin. -/
def reqAtOrigin : NodeData := ⟨9, 0, 0, .survivor, some 3, some 1⟩

/-- Haversine oracle reporting 5 m between any two points. -/
def havConst5 : ℚ → ℚ → ℚ → ℚ → ℚ := fun _ _ _ _ => 5

/-- Haversine oracle reporting 20 m between any two points. -/
def havConst20 : ℚ → ℚ → ℚ → ℚ → ℚ := fun _ _ _ _ => 20

/-- Haversine oracle placing latitudes 0, 6 and 12 on a line: 0 and 12 are
12 m apart, and 6 is 6 m from each (distance table, symmetric). -/
def havLineY : ℚ → ℚ → ℚ → ℚ → ℚ := fun lat1 _ lat2 _ =>
  if (lat1 = 0 ∧ lat2 = 12) ∨ (lat1 = 12 ∧ lat2 = 0) then 12
  else if (lat1 = 0 ∧ lat2 = 6) ∨ (lat1 = 6 ∧ lat2 = 0) then 6
  else if (lat1 = 6 ∧ lat2 = 12) ∨ (lat1 = 12 ∧ lat2 = 6) then 6
  else 0

/-- Survivor point request (urgency 3, count 1). -/
def pointA : NodeData := ⟨1, 0, 0, .survivor, some 3, some 1⟩

/-- Survivor point request (urgency 5, count 2). -/
def pointB : NodeData := ⟨2, 0, 0, .survivor, some 5, some 2⟩

/-- A kept survivor at latitude 0 (urgency 2, count 1). -/
def keptSurvivor : NodeData := ⟨1, 0, 0, .survivor, some 2, some 1⟩

/-- A kept pickup at latitude 12, with `urgency = count = None`. -/
def keptPickup : NodeData := ⟨2, 0, 12, .pickup, none, none⟩

/-- An incoming survivor at latitude 6: within 10 m of both kept points
under `havLineY`. -/
def incomingSurvivor : NodeData := ⟨3, 0, 6, .survivor, some 1, some 4⟩

/-! ## Theorems -/

/-- Claim C9: after `evict_expired()` (`cleanup_cache`) runs at time `now`,
every record whose `last_access` is more than 24 hours old or whose
`download_time` is more than 7 days old is absent, and records violating
neither TTL condition are retained. -/
theorem cleanup_cache_ttl (now : ℚ) (table : List CacheRecord) (r : CacheRecord)
    (hmem : r ∈ table) :
    ((ACCESS_TTL_SECONDS < now - r.last_access ∨
        DOWNLOAD_TTL_SECONDS < now - r.download_time) →
      r ∉ cleanup_cache now table)
    ∧ (now - r.last_access ≤ ACCESS_TTL_SECONDS →
        now - r.download_time ≤ DOWNLOAD_TTL_SECONDS →
        r ∈ cleanup_cache now table) := by
  constructor
  · intro hold hr
    have h2 := (List.mem_filter.mp hr).2
    simp only [cleanup_cache, Bool.not_eq_true', Bool.or_eq_false_iff,
      decide_eq_false_iff_not, not_lt] at h2
    rcases hold with h | h
    · linarith [h2.1]
    · linarith [h2.2]
  · intro h1 h2
    simp only [cleanup_cache]
    refine List.mem_filter.mpr ⟨hmem, ?_⟩
    simp only [Bool.not_eq_true', Bool.or_eq_false_iff, decide_eq_false_iff_not, not_lt]
    constructor <;> linarith

/-- Witness for C9: a fresh record is retained, an idle one is evicted. -/
theorem cleanup_cache_ttl_witness :
    (⟨"k", [], 1000000, 1000000⟩ : CacheRecord) ∈
      cleanup_cache 1000000 [⟨"k", [], 1000000, 1000000⟩]
    ∧ (⟨"k2", [], 900000, 900000⟩ : CacheRecord) ∉
      cleanup_cache 1000000 [⟨"k2", [], 900000, 900000⟩] := by
  constructor
  · exact (cleanup_cache_ttl 1000000 [⟨"k", [], 1000000, 1000000⟩] ⟨"k", [], 1000000, 1000000⟩
      (by decide)).2 (by norm_num [ACCESS_TTL_SECONDS]) (by norm_num [DOWNLOAD_TTL_SECONDS])
  · exact (cleanup_cache_ttl 1000000 [⟨"k2", [], 900000, 900000⟩] ⟨"k2", [], 900000, 900000⟩
      (by decide)).1 (Or.inl (by norm_num [ACCESS_TTL_SECONDS]))

/-- Membership in `setStateKey` images. -/
lemma mem_setStateKey {G : Graph} {u v key : Int} {st : String} {e : GEdge}
    (he : e ∈ (setStateKey G u v key st).edges) :
    ∃ a ∈ G.edges,
      e = if a.u == u && a.v == v && a.key == key then
            { a with data := { a.data with state := some st } }
          else a := by
  simp only [setStateKey, List.mem_map] at he
  obtain ⟨a, ha, h⟩ := he
  exact ⟨a, ha, h.symm⟩

/-- Membership in `setStateAll` images. -/
lemma mem_setStateAll {G : Graph} {u v : Int} {st : String} {e : GEdge}
    (he : e ∈ (setStateAll G u v st).edges) :
    ∃ a ∈ G.edges,
      e = if a.u == u && a.v == v then
            { a with data := { a.data with state := some st } }
          else a := by
  simp only [setStateAll, List.mem_map] at he
  obtain ⟨a, ha, h⟩ := he
  exact ⟨a, ha, h.symm⟩

/-- `setStateKey` leaves the endpoint/key triple of every edge unchanged,
and sets the state of every matching edge. -/
lemma setStateKey_spec (G : Graph) (u v key : Int) (st : String) :
    ∀ e ∈ (setStateKey G u v key st).edges,
      (e.u = u → e.v = v → e.key = key → e.data.state = some st) := by
  intro e he h1 h2 h3
  obtain ⟨a, _, hdef⟩ := mem_setStateKey he
  by_cases hc : a.u == u && a.v == v && a.key == key
  · simp only [hc, if_true] at hdef
    subst hdef; rfl
  · simp only [hc, if_false] at hdef
    subst hdef
    simp only [Bool.and_eq_true, beq_iff_eq] at hc
    exact absurd ⟨⟨h1, h2⟩, h3⟩ hc

/-- Claim C6: after `edit_edges` applies a modification to an existing edge
`(u, v, k)`, the edited edge still exists, it carries the new state, and every
reverse-direction parallel edge `(v, u, *)` carries the same state — road
blockage is direction-symmetric. -/
theorem edit_edges_reverse_state (G : Graph) (m : EdgeMod)
    (hexist : hasEdgeKey G m.u m.v m.key = true) :
    (∃ e ∈ (edit_edges G [m]).edges, e.u = m.u ∧ e.v = m.v ∧ e.key = m.key)
    ∧ (∀ e ∈ (edit_edges G [m]).edges, e.u = m.u → e.v = m.v → e.key = m.key →
        e.data.state = some m.state)
    ∧ (∀ e ∈ (edit_edges G [m]).edges, e.u = m.v → e.v = m.u →
        e.data.state = some m.state) := by
  have hfold : edit_edges G [m] = applyMod G m := rfl
  rw [hfold]
  simp only [applyMod, hexist, if_true]
  set G1 := setStateKey G m.u m.v m.key m.state with hG1
  -- the edited edge survives setStateKey with its triple intact
  have hexist1 : ∃ e ∈ G1.edges, e.u = m.u ∧ e.v = m.v ∧ e.key = m.key := by
    simp only [hasEdgeKey, List.any_eq_true, Bool.and_eq_true, beq_iff_eq] at hexist
    obtain ⟨a, ha, ⟨h1, h2⟩, h3⟩ := hexist
    refine ⟨if a.u == m.u && a.v == m.v && a.key == m.key then
        { a with data := { a.data with state := some m.state } } else a, ?_, ?_⟩
    · exact List.mem_map_of_mem _ ha
    · by_cases hc : (a.u == m.u && a.v == m.v && a.key == m.key) = true
      · rw [if_pos hc]; exact ⟨h1, h2, h3⟩
      · rw [if_neg hc]; exact ⟨h1, h2, h3⟩
  by_cases hrev : hasEdgeAny G1 m.v m.u
  · simp only [hrev, if_true]
    refine ⟨?_, ?_, ?_⟩
    · obtain ⟨e, he, h1, h2, h3⟩ := hexist1
      refine ⟨if e.u == m.v && e.v == m.u then
          { e with data := { e.data with state := some m.state } } else e, ?_, ?_⟩
      · exact List.mem_map_of_mem _ he
      · by_cases hc : (e.u == m.v && e.v == m.u) = true
        · rw [if_pos hc]; exact ⟨h1, h2, h3⟩
        · rw [if_neg hc]; exact ⟨h1, h2, h3⟩
    · intro e he h1 h2 h3
      obtain ⟨a, ha, hdef⟩ := mem_setStateAll he
      by_cases hc : a.u == m.v && a.v == m.u
      · simp only [hc, if_true] at hdef
        subst hdef; rfl
      · simp only [hc, if_false] at hdef
        subst hdef
        exact setStateKey_spec G m.u m.v m.key m.state _ ha h1 h2 h3
    · intro e he h1 h2
      obtain ⟨a, ha, hdef⟩ := mem_setStateAll he
      by_cases hc : a.u == m.v && a.v == m.u
      · simp only [hc, if_true] at hdef
        subst hdef; rfl
      · simp only [hc, if_false] at hdef
        subst hdef
        simp only [Bool.and_eq_true, beq_iff_eq] at hc
        exact absurd ⟨h1, h2⟩ hc
  · simp only [hrev, if_false]
    refine ⟨hexist1, ?_, ?_⟩
    · intro e he h1 h2 h3
      exact setStateKey_spec G m.u m.v m.key m.state e he h1 h2 h3
    · intro e he h1 h2
      exfalso
      apply hrev
      simp only [hasEdgeAny, List.any_eq_true, Bool.and_eq_true, beq_iff_eq]
      exact ⟨e, he, h1, h2⟩

/-- Witness for C6: blocking edge (1,2,0) of `parallelGraph` also blocks both
reverse parallel edges (2,1,0) and (2,1,1). -/
theorem edit_edges_reverse_state_witness :
    (∃ e ∈ (edit_edges parallelGraph [⟨1, 2, 0, "blocked"⟩]).edges,
        e.u = 1 ∧ e.v = 2 ∧ e.key = 0)
    ∧ (∀ e ∈ (edit_edges parallelGraph [⟨1, 2, 0, "blocked"⟩]).edges,
        e.u = 1 → e.v = 2 → e.key = 0 → e.data.state = some "blocked")
    ∧ (∀ e ∈ (edit_edges parallelGraph [⟨1, 2, 0, "blocked"⟩]).edges,
        e.u = 2 → e.v = 1 → e.data.state = some "blocked") :=
  edit_edges_reverse_state parallelGraph ⟨1, 2, 0, "blocked"⟩ (by decide)

/-- Claim C4 (amended): every successful `split_edge_at_point` returns a
synthetic node id `hash(...) % 10000000 * -1`, which is nonpositive (zero when
the hash value is a multiple of `10^7`), and therefore never collides with a
positive real network node id. -/
theorem split_edge_synthetic_id_nonpositive (geo : GeomOracle)
    (mkId : Int → Int → Int → Int) (G : Graph) (u v key : Int) (pt : ℚ × ℚ)
    (id : Int) (h : (split_edge_at_point geo mkId G u v key pt).2 = some id) :
    id ≤ 0 ∧ ∀ m : Int, 0 < m → id ≠ m := by
  unfold split_edge_at_point at h
  cases hg : getEdgeData G u v key with
  | none => rw [hg] at h; exact absurd h (by simp)
  | some e =>
    rw [hg] at h
    simp only [Option.some.injEq] at h
    have hmod : 0 ≤ mkId u v key % 10000000 := Int.emod_nonneg _ (by norm_num)
    constructor
    · omega
    · intro m hm; omega

/-- Witness for C4: a hash value of 123 yields node id −123, nonpositive and
distinct from every positive id. -/
theorem split_edge_synthetic_id_nonpositive_witness :
    (-123 : Int) ≤ 0 ∧ ∀ m : Int, 0 < m → (-123 : Int) ≠ m :=
  split_edge_synthetic_id_nonpositive trivGeo plainHash twoNodeGraph 1 2 0 (1 / 2, 0)
    (-123) (by decide)

/-- Counterexample for C4 as stated: when the salted hash lands on a multiple
of `10^7`, the returned synthetic id is `0`, which is not strictly negative. -/
theorem split_edge_strict_negativity_fails :
    (split_edge_at_point trivGeo collidingHash twoNodeGraph 1 2 0 (1 / 2, 0)).2 = some 0
    ∧ ¬ (0 : Int) < 0 := by
  constructor
  · decide
  · omega

/-- Claim C3: when the nearest edge `(u, v, key)` to a point request has an
endpoint within 50 m, `integrate_nodes_into_graph` snaps the point to an
existing endpoint (graph unchanged — no node inserted), and endpoint `u` is
checked first and wins whenever it qualifies. -/
theorem integrate_endpoint_snap (geo : GeomOracle) (mkId : Int → Int → Int → Int)
    (ne : ℚ → ℚ → Int × Int × Int) (G : Graph) (req : NodeData) (u v key : Int)
    (hne : ne req.x req.y = (u, v, key))
    (h : geo.hav req.y req.x (nodeY G u) (nodeX G u) < 50 ∨
        geo.hav req.y req.x (nodeY G v) (nodeX G v) < 50) :
    (integrateOne geo mkId ne G req).1 = G
    ∧ ((integrateOne geo mkId ne G req).2.graph_id = u ∨
        (integrateOne geo mkId ne G req).2.graph_id = v)
    ∧ (geo.hav req.y req.x (nodeY G u) (nodeX G u) < 50 →
        (integrateOne geo mkId ne G req).2.graph_id = u) := by
  by_cases h1 : geo.hav req.y req.x (nodeY G u) (nodeX G u) < 50
  · simp only [integrateOne, hne, if_pos h1]
    exact ⟨trivial, Or.inl trivial, fun _ => trivial⟩
  · have h2 : geo.hav req.y req.x (nodeY G v) (nodeX G v) < 50 := h.resolve_left h1
    simp only [integrateOne, hne, if_neg h1, if_pos h2]
    exact ⟨trivial, Or.inr trivial, fun hc => absurd hc h1⟩

/-- Witness for C3: a request 10 m from both endpoints of the nearest edge of
`twoNodeGraph` snaps to endpoint 1 and leaves the graph unchanged. -/
theorem integrate_endpoint_snap_witness :
    (integrateOne snapGeo plainHash neFixed twoNodeGraph reqAtOrigin).1 = twoNodeGraph
    ∧ ((integrateOne snapGeo plainHash neFixed twoNodeGraph reqAtOrigin).2.graph_id = 1 ∨
        (integrateOne snapGeo plainHash neFixed twoNodeGraph reqAtOrigin).2.graph_id = 2)
    ∧ (snapGeo.hav reqAtOrigin.y reqAtOrigin.x (nodeY twoNodeGraph 1) (nodeX twoNodeGraph 1) < 50 →
        (integrateOne snapGeo plainHash neFixed twoNodeGraph reqAtOrigin).2.graph_id = 1) :=
  integrate_endpoint_snap snapGeo plainHash neFixed twoNodeGraph reqAtOrigin 1 2 0
    (by decide) (Or.inl (by decide))

/-- Position-wise behaviour of the GNN weighting loop. -/
lemma applyWeightsGNN_getElem (probs : Nat → ℚ) :
    ∀ (l : List GEdge) (i j : Nat),
      (applyWeightsGNN probs i l)[j]? = l[j]?.map (gnnWeightEdge probs (i + j)) := by
  intro l
  induction l with
  | nil => intro i j; simp [applyWeightsGNN]
  | cons e rest ih =>
    intro i j
    cases j with
    | zero => simp [applyWeightsGNN]
    | succ j =>
      have hs : i + (j + 1) = i + 1 + j := by omega
      simp [applyWeightsGNN, ih (i + 1) j, hs]

/-- Claim C7: every edge of the routing graph receives
`travel_cost = length × state_multiplier × discount` with multiplier 1/5/10000
for clear/partial/blocked (blocked edges stay in the graph with the same
endpoints), and `discount = 1 − 0.8 p` exactly when a traversal probability is
available (`gnnProbs = some probs`), else `discount = 1` (model absent or GNN
call failed). -/
theorem infer_routes_travel_cost (gnnProbs : Option (Nat → ℚ)) (G : Graph)
    (i : Nat) (e : GEdge) (he : G.edges[i]? = some e)
    (hstate : e.data.state.getD "clear" = "clear" ∨
        e.data.state.getD "clear" = "partial" ∨
        e.data.state.getD "clear" = "blocked") :
    ∃ e2, (inferWeights gnnProbs G).edges[i]? = some e2
      ∧ e2.u = e.u ∧ e2.v = e.v ∧ e2.key = e.key
      ∧ (inferWeights gnnProbs G).edges.length = G.edges.length
      ∧ e2.data.travel_cost = some (travelCostSpec (e.data.length.getD 1)
          (e.data.state.getD "clear") (gnnProbs.map fun probs => probs i)) := by
  cases gnnProbs with
  | none =>
    refine ⟨fallbackWeightEdge e, ?_, rfl, rfl, rfl, ?_, ?_⟩
    · simp [inferWeights, List.getElem?_map, he]
    · simp [inferWeights]
    · simp only [fallbackWeightEdge, travelCostSpec, Option.map_none', Option.some.injEq]
      rcases hstate with h | h | h <;> rw [h] <;> simp
  | some probs =>
    refine ⟨gnnWeightEdge probs i e, ?_, rfl, rfl, rfl, ?_, ?_⟩
    · rw [inferWeights]
      simp [applyWeightsGNN_getElem probs G.edges 0 i, he]
    · rw [inferWeights]
      have hlen : ∀ (l : List GEdge) (k : Nat), (applyWeightsGNN probs k l).length = l.length := by
        intro l
        induction l with
        | nil => intro k; rfl
        | cons x xs ih => intro k; simp [applyWeightsGNN, ih (k + 1)]
      exact hlen G.edges 0
    · simp only [gnnWeightEdge, travelCostSpec, Option.map_some', Option.some.injEq]
      rcases hstate with h | h | h <;> rw [h] <;> simp [mul_comm]

/-- Witness for C7: the single edge of `twoNodeGraph` (length 100, state
absent hence clear) with probability 1/2 gets cost `100 × 1 × (1 − 0.8·½) = 60`. -/
theorem infer_routes_travel_cost_witness :
    ∃ e2, (inferWeights (some fun _ => 1 / 2) twoNodeGraph).edges[0]? = some e2
      ∧ e2.u = (⟨1, 2, 0, ⟨some 100, none, none, none⟩⟩ : GEdge).u
      ∧ e2.v = (⟨1, 2, 0, ⟨some 100, none, none, none⟩⟩ : GEdge).v
      ∧ e2.key = (⟨1, 2, 0, ⟨some 100, none, none, none⟩⟩ : GEdge).key
      ∧ (inferWeights (some fun _ => 1 / 2) twoNodeGraph).edges.length =
          twoNodeGraph.edges.length
      ∧ e2.data.travel_cost = some (travelCostSpec
          ((⟨1, 2, 0, ⟨some 100, none, none, none⟩⟩ : GEdge).data.length.getD 1)
          ((⟨1, 2, 0, ⟨some 100, none, none, none⟩⟩ : GEdge).data.state.getD "clear")
          ((some fun _ => 1 / 2).map fun probs => probs 0)) :=
  infer_routes_travel_cost (some fun _ => 1 / 2) twoNodeGraph 0
    ⟨1, 2, 0, ⟨some 100, none, none, none⟩⟩ (by decide) (Or.inl (by decide))

/-- When no kept point is within 10 m, the scan finds nothing. -/
lemma tryMergeNode_none (hav : ℚ → ℚ → ℚ → ℚ → ℚ) (node : NodeData) :
    ∀ kept : List NodeData, (∀ e ∈ kept, ¬ hav node.y node.x e.y e.x < 10) →
      tryMergeNode hav node kept = none := by
  intro kept
  induction kept with
  | nil => intro _; rfl
  | cons e rest ih =>
    intro hfar
    have h1 : ¬ hav node.y node.x e.y e.x < 10 := hfar e (List.mem_cons_self e rest)
    simp only [tryMergeNode, if_neg h1,
      ih fun e2 h2 => hfar e2 (List.mem_cons_of_mem e h2), Option.map_none']

/-- The scan skips a far prefix and merges into the first kept point within
10 m. -/
lemma tryMergeNode_first (hav : ℚ → ℚ → ℚ → ℚ → ℚ) (node : NodeData) :
    ∀ (kept1 : List NodeData) (e : NodeData) (kept2 : List NodeData),
      (∀ e2 ∈ kept1, ¬ hav node.y node.x e2.y e2.x < 10) →
      hav node.y node.x e.y e.x < 10 →
      tryMergeNode hav node (kept1 ++ e :: kept2)
        = some ((mergeNode e node).map (fun m => kept1 ++ m :: kept2)) := by
  intro kept1
  induction kept1 with
  | nil =>
    intro e kept2 _ hclose
    simp only [List.nil_append, tryMergeNode, if_pos hclose]
  | cons a rest ih =>
    intro e kept2 hfar hclose
    have h1 : ¬ hav node.y node.x a.y a.x < 10 := hfar a (List.mem_cons_self a rest)
    have hstep : tryMergeNode hav node ((a :: rest) ++ e :: kept2)
        = (tryMergeNode hav node (rest ++ e :: kept2)).map fun r => r.map (a :: ·) := by
      simp only [List.cons_append, tryMergeNode, if_neg h1]
      rfl
    rw [hstep, ih e kept2 (fun e2 h2 => hfar e2 (List.mem_cons_of_mem a h2)) hclose]
    simp only [Option.map_some', Option.some.injEq]
    cases mergeNode e node <;> rfl

/-- Claim C5 core: `deduplicate_nodes` keeps a point with no close kept
predecessor as-is, merges an incoming point into the first kept point within
10 m taking max urgency (missing incoming urgency counts as 0) and summed
count, and on a two-point input produces exactly the merged point when the
points are under 10 m apart and both points otherwise. -/
theorem deduplicate_merge_semantics :
    (∀ (hav : ℚ → ℚ → ℚ → ℚ → ℚ) (kept1 kept2 : List NodeData) (e node : NodeData)
       (rest : List NodeData) (eu ec nc : Int),
      (∀ e2 ∈ kept1, ¬ hav node.y node.x e2.y e2.x < 10) →
      hav node.y node.x e.y e.x < 10 →
      e.urgency = some eu → e.count = some ec → node.count = some nc →
      dedupLoop hav (kept1 ++ e :: kept2) (node :: rest)
        = dedupLoop hav
            (kept1 ++ { e with urgency := some (max eu (node.urgency.getD 0)),
                               count := some (ec + nc) } :: kept2) rest)
    ∧ (∀ (hav : ℚ → ℚ → ℚ → ℚ → ℚ) (kept : List NodeData) (node : NodeData)
         (rest : List NodeData),
        (∀ e2 ∈ kept, ¬ hav node.y node.x e2.y e2.x < 10) →
        dedupLoop hav kept (node :: rest) = dedupLoop hav (kept ++ [node]) rest)
    ∧ (∀ (hav : ℚ → ℚ → ℚ → ℚ → ℚ) (a b : NodeData) (ua ca ub cb : Int),
        a.urgency = some ua → a.count = some ca → b.urgency = some ub → b.count = some cb →
        (hav b.y b.x a.y a.x < 10 →
          deduplicate_nodes hav [a, b]
            = .ok [{ a with urgency := some (max ua ub), count := some (ca + cb) }])
        ∧ (¬ hav b.y b.x a.y a.x < 10 → deduplicate_nodes hav [a, b] = .ok [a, b])) := by
  have hmerge : ∀ (hav : ℚ → ℚ → ℚ → ℚ → ℚ) (kept1 kept2 : List NodeData)
      (e node : NodeData) (rest : List NodeData) (eu ec nc : Int),
      (∀ e2 ∈ kept1, ¬ hav node.y node.x e2.y e2.x < 10) →
      hav node.y node.x e.y e.x < 10 →
      e.urgency = some eu → e.count = some ec → node.count = some nc →
      dedupLoop hav (kept1 ++ e :: kept2) (node :: rest)
        = dedupLoop hav
            (kept1 ++ { e with urgency := some (max eu (node.urgency.getD 0)),
                               count := some (ec + nc) } :: kept2) rest := by
    intro hav kept1 kept2 e node rest eu ec nc hfar hclose hu hc hnc
    have hm : mergeNode e node
        = .ok { e with urgency := some (max eu (node.urgency.getD 0)),
                       count := some (ec + nc) } := by
      rw [mergeNode, hu, hc, hnc]
      cases node.urgency <;> rfl
    rw [dedupLoop, tryMergeNode_first hav node kept1 e kept2 hfar hclose, hm]
    rfl
  have hkeep : ∀ (hav : ℚ → ℚ → ℚ → ℚ → ℚ) (kept : List NodeData) (node : NodeData)
      (rest : List NodeData),
      (∀ e2 ∈ kept, ¬ hav node.y node.x e2.y e2.x < 10) →
      dedupLoop hav kept (node :: rest) = dedupLoop hav (kept ++ [node]) rest := by
    intro hav kept node rest hfar
    rw [dedupLoop, tryMergeNode_none hav node kept hfar]
  refine ⟨hmerge, hkeep, ?_⟩
  intro hav a b ua ca ub cb hua hca hub hcb
  constructor
  · intro hclose
    have h1 : dedupLoop hav ([] : List NodeData) [a, b] = dedupLoop hav [a] [b] :=
      hkeep hav [] a [b] (by intro e2 h2; cases h2)
    have h2 : dedupLoop hav [a] [b]
        = dedupLoop hav [{ a with urgency := some (max ua (b.urgency.getD 0)),
                                  count := some (ca + cb) }] [] := by
      have := hmerge hav [] [] a b [] ua ca cb (by intro e2 h2; cases h2) hclose hua hca hcb
      simpa using this
    rw [deduplicate_nodes, h1, h2, hub]
    rfl
  · intro hfar
    have h1 : dedupLoop hav ([] : List NodeData) [a, b] = dedupLoop hav [a] [b] :=
      hkeep hav [] a [b] (by intro e2 h2; cases h2)
    have h2 : dedupLoop hav [a] [b] = dedupLoop hav [a, b] [] := by
      have := hkeep hav [a] b []
        (by intro e2 h2; rcases List.mem_singleton.mp h2 with rfl; exact hfar)
      simpa using this
    rw [deduplicate_nodes, h1, h2]
    rfl

/-- Witness for C5: two survivor points 5 m apart merge into one point with
max urgency and summed count; two points 20 m apart are both retained. -/
theorem deduplicate_merge_semantics_witness :
    (havConst5 pointB.y pointB.x pointA.y pointA.x < 10 →
      deduplicate_nodes havConst5 [pointA, pointB]
        = .ok [{ pointA with urgency := some (max 3 5), count := some (1 + 2) }])
    ∧ (¬ havConst20 pointB.y pointB.x pointA.y pointA.x < 10 →
      deduplicate_nodes havConst20 [pointA, pointB] = .ok [pointA, pointB]) :=
  ⟨(deduplicate_merge_semantics.2.2 havConst5 pointA pointB 3 1 5 2
      rfl rfl rfl rfl).1,
    (deduplicate_merge_semantics.2.2 havConst20 pointA pointB 3 1 5 2
      rfl rfl rfl rfl).2⟩

/-- Claim C10 (amended): when the first kept point within 10 m of an incoming
point is missing urgency or count, the merge body raises `TypeError`
(`max(None, ...)` or `None + int`), so deduplication fails on that input. -/
theorem dedup_incomplete_target_raises (hav : ℚ → ℚ → ℚ → ℚ → ℚ)
    (kept1 kept2 : List NodeData) (e node : NodeData) (rest : List NodeData)
    (hfar : ∀ e2 ∈ kept1, ¬ hav node.y node.x e2.y e2.x < 10)
    (hclose : hav node.y node.x e.y e.x < 10)
    (habsent : e.urgency = none ∨ e.count = none) :
    dedupLoop hav (kept1 ++ e :: kept2) (node :: rest) = .error "TypeError" := by
  have hm : mergeNode e node = .error "TypeError" := by
    rcases habsent with h | h
    · rw [mergeNode, h]
    · cases hu : e.urgency with
      | none => rw [mergeNode, hu]
      | some eu =>
        rw [mergeNode, hu, h]
  rw [dedupLoop, tryMergeNode_first hav node kept1 e kept2 hfar hclose, hm]
  rfl

/-- Witness for the amended C10: an incoming survivor whose only nearby kept
point is a pickup with absent urgency and count makes deduplication fail. -/
theorem dedup_incomplete_target_raises_witness :
    dedupLoop havLineY ([] ++ keptPickup :: []) (incomingSurvivor :: [])
      = .error "TypeError" :=
  dedup_incomplete_target_raises havLineY [] [] keptPickup incomingSurvivor []
    (by intro e2 h2; cases h2) (by decide) (Or.inl rfl)

/-- Counterexample for C10 as stated: the incoming survivor lies within 10 m
of the earlier-kept pickup (urgency and count absent), yet deduplication
succeeds, because the scan merges into the *first* kept point within 10 m —
here the complete survivor kept before the pickup. -/
theorem dedup_incomplete_target_counterexample :
    deduplicate_nodes havLineY [keptSurvivor, keptPickup, incomingSurvivor]
      = .ok [⟨1, 0, 0, .survivor, some 2, some 5⟩, keptPickup]
    ∧ havLineY incomingSurvivor.y incomingSurvivor.x keptPickup.y keptPickup.x < 10
    ∧ (keptPickup.urgency = none ∨ keptPickup.count = none) := by
  refine ⟨rfl, by decide, Or.inl rfl⟩

/-- `hexFixed` always renders exactly `k` characters. -/
lemma hexFixed_length : ∀ (k n : Nat), (hexFixed k n).length = k := by
  intro k
  induction k with
  | zero => intro n; rfl
  | succ k ih =>
    intro n
    simp only [hexFixed, List.length_append, List.length_cons, List.length_nil, ih]

/-- Every `hexDigit` of a value below 16 is a lowercase hex character. -/
lemma hexDigit_mem (m : Nat) (hm : m < 16) :
    hexDigit m ∈ ("0123456789abcdef" : String).data := by
  interval_cases m <;> decide

/-- Every character rendered by `hexFixed` is a lowercase hex character. -/
lemma hexFixed_mem : ∀ (k n : Nat) (c : Char), c ∈ hexFixed k n →
    c ∈ ("0123456789abcdef" : String).data := by
  intro k
  induction k with
  | zero => intro n c hc; cases hc
  | succ k ih =>
    intro n c hc
    rcases List.mem_append.mp hc with h | h
    · exact ih (n / 16) c h
    · rcases List.mem_singleton.mp h with rfl
      exact hexDigit_mem (n % 16) (Nat.mod_lt _ (by norm_num))

/-- The SHA-1 hexdigest is always 40 characters of lowercase hex. -/
lemma sha1Hex_shape (msg : List Nat) :
    (sha1Hex msg).length = 40
    ∧ ∀ c ∈ (sha1Hex msg).data, c ∈ ("0123456789abcdef" : String).data := by
  constructor
  · show (String.mk _).length = 40
    simp only [String.length, List.length_append, hexFixed_length]
  · intro c hc
    simp only [sha1Hex, List.mem_append] at hc
    rcases hc with ((((h | h) | h) | h) | h) <;> exact hexFixed_mem _ _ c h

/-- Claim C8: bounding boxes whose four fields round identically at 5 decimal
places share the same cache key, and the key is a deterministic 40-character
lowercase-hex digest of the normalized box's canonical string. -/
theorem make_bbox_key_deterministic (n1 s1 e1 w1 n2 s2 e2 w2 : ℚ)
    (h : normalize_bbox n1 s1 e1 w1 = normalize_bbox n2 s2 e2 w2) :
    make_bbox_key n1 s1 e1 w1 = make_bbox_key n2 s2 e2 w2
    ∧ (make_bbox_key n1 s1 e1 w1).length = 40
    ∧ ∀ c ∈ (make_bbox_key n1 s1 e1 w1).data,
        c ∈ ("0123456789abcdef" : String).data := by
  refine ⟨?_, (sha1Hex_shape _).1, (sha1Hex_shape _).2⟩
  rw [make_bbox_key, make_bbox_key, h]

/-- Witness for C8: 1.000001 and 0.999999 both round to 1 at 5 decimals, so
the two boxes share one key, of length 40. -/
theorem make_bbox_key_deterministic_witness :
    make_bbox_key (1000001 / 1000000) 0 0 0 = make_bbox_key (999999 / 1000000) 0 0 0
    ∧ (make_bbox_key (1000001 / 1000000) 0 0 0).length = 40
    ∧ ∀ c ∈ (make_bbox_key (1000001 / 1000000) 0 0 0).data,
        c ∈ ("0123456789abcdef" : String).data :=
  make_bbox_key_deterministic (1000001 / 1000000) 0 0 0 (999999 / 1000000) 0 0 0
    (by norm_num [normalize_bbox, pyRound5])

/-- An indexed element is a member. -/
lemma mem_of_getElemOpt {α : Type} : ∀ (l : List α) (i : Nat) (a : α),
    l[i]? = some a → a ∈ l := by
  intro l
  induction l with
  | nil => intro i a h; cases h
  | cons x xs ih =>
    intro i a h
    cases i with
    | zero =>
      simp only [List.getElem?_cons_zero, Option.some.injEq] at h
      exact h ▸ List.mem_cons_self x xs
    | succ i =>
      simp only [List.getElem?_cons_succ] at h
      exact List.mem_cons_of_mem x (ih i a h)

/-- Removing a different element by index keeps `s0` in the list. -/
lemma mem_eraseIdx_of_ne {α : Type} : ∀ (l : List α) (i : Nat) (s s0 : α),
    l[i]? = some s → s ≠ s0 → s0 ∈ l → s0 ∈ l.eraseIdx i := by
  intro l
  induction l with
  | nil => intro i s s0 h; cases h
  | cons x xs ih =>
    intro i s s0 h hne hmem
    cases i with
    | zero =>
      simp only [List.getElem?_cons_zero, Option.some.injEq] at h
      subst h
      rcases List.mem_cons.mp hmem with rfl | hmem2
      · exact absurd rfl hne
      · exact hmem2
    | succ i =>
      simp only [List.getElem?_cons_succ] at h
      rcases List.mem_cons.mp hmem with rfl | hmem2
      · exact List.mem_cons_self _ _
      · exact List.mem_cons_of_mem x (ih i s s0 h hne hmem2)

/-- Erasing an index only removes elements that were present. -/
lemma mem_of_mem_eraseIdx_local {α : Type} : ∀ (l : List α) (i : Nat) (a : α),
    a ∈ l.eraseIdx i → a ∈ l := by
  intro l
  induction l with
  | nil => intro i a h; cases i <;> cases h
  | cons x xs ih =>
    intro i a h
    cases i with
    | zero => exact List.mem_cons_of_mem x h
    | succ i =>
      rcases List.mem_cons.mp h with rfl | h2
      · exact List.mem_cons_self _ _
      · exact List.mem_cons_of_mem x (ih i a h2)

/-- The running minimum of `selectBest` lands in the list (or stays at the
seed), never exceeds the seed, and is a lower bound of the list. -/
lemma foldlMin_spec :
    ∀ (l : List Cand) (acc : Cand),
      (l.foldl (fun best c2 => if c2.score < best.score then c2 else best) acc = acc ∨
        l.foldl (fun best c2 => if c2.score < best.score then c2 else best) acc ∈ l)
      ∧ (l.foldl (fun best c2 => if c2.score < best.score then c2 else best) acc).score
          ≤ acc.score
      ∧ ∀ c2 ∈ l,
          (l.foldl (fun best c2 => if c2.score < best.score then c2 else best) acc).score
            ≤ c2.score := by
  intro l
  induction l with
  | nil =>
    intro acc
    exact ⟨Or.inl rfl, le_refl _, by intro c2 h; cases h⟩
  | cons x xs ih =>
    intro acc
    simp only [List.foldl_cons]
    by_cases hx : x.score < acc.score
    · rw [if_pos hx]
      refine ⟨?_, ?_, ?_⟩
      · rcases (ih x).1 with h | h
        · exact Or.inr (by rw [h]; exact List.mem_cons_self x xs)
        · exact Or.inr (List.mem_cons_of_mem x h)
      · exact le_trans (ih x).2.1 (le_of_lt hx)
      · intro c2 hc2
        rcases List.mem_cons.mp hc2 with h1 | h2
        · rw [h1]; exact (ih x).2.1
        · exact (ih x).2.2 c2 h2
    · rw [if_neg hx]
      refine ⟨?_, ?_, ?_⟩
      · rcases (ih acc).1 with h | h
        · exact Or.inl h
        · exact Or.inr (List.mem_cons_of_mem x h)
      · exact (ih acc).2.1
      · intro c2 hc2
        rcases List.mem_cons.mp hc2 with h1 | h2
        · rw [h1]; exact le_trans (ih acc).2.1 (not_lt.mp hx)
        · exact (ih acc).2.2 c2 h2

/-- The selected pair is a candidate and scores at most every candidate. -/
lemma selectBest_spec (l : List Cand) (c : Cand) (h : selectBest l = some c) :
    c ∈ l ∧ ∀ c2 ∈ l, c.score ≤ c2.score := by
  cases l with
  | nil => cases h
  | cons x xs =>
    simp only [selectBest, Option.some.injEq] at h
    subst h
    refine ⟨?_, ?_⟩
    · rcases (foldlMin_spec xs x).1 with h | h
      · rw [h]; exact List.mem_cons_self x xs
      · exact List.mem_cons_of_mem x h
    · intro c2 hc2
      rcases List.mem_cons.mp hc2 with h1 | h2
      · rw [h1]; exact (foldlMin_spec xs x).2.1
      · exact (foldlMin_spec xs x).2.2 c2 h2

/-- Soundness of the per-vehicle scan: every candidate records a survivor at
its index offset, with the skip conditions and the scoring formula. -/
lemma candidatesFor_sound (dist : Int → Int → Option ℚ) (veh : Vehicle) (vi : Nat) :
    ∀ (ss : List SolverSurvivor) (si0 : Nat) (c : Cand),
      c ∈ candidatesFor dist veh vi si0 ss →
      c.vi = vi ∧ ∃ j s, ss[j]? = some s ∧ c.si = si0 + j ∧
        veh.current_node ≠ s.graph_id ∧
        dist veh.current_node s.graph_id = some c.d ∧
        c.score = (veh.total_distance + c.d) / ((s.urgency : ℚ) ^ 2 + (s.count : ℚ)) := by
  intro ss
  induction ss with
  | nil => intro si0 c hc; cases hc
  | cons s rest ih =>
    intro si0 c hc
    rw [candidatesFor] at hc
    rcases List.mem_append.mp hc with h | h
    · by_cases hb : (veh.current_node == s.graph_id) = true
      · rw [if_pos hb] at h; cases h
      · rw [if_neg hb] at h
        cases hd : dist veh.current_node s.graph_id with
        | none => rw [hd] at h; cases h
        | some d =>
          rw [hd] at h
          rcases List.mem_singleton.mp h with rfl
          refine ⟨rfl, 0, s, by simp, by simp, ?_, hd, rfl⟩
          intro heq
          exact hb (by simp [heq])
    · obtain ⟨hvi, j, s2, hj, hsi, hne, hd, hs⟩ := ih (si0 + 1) c h
      exact ⟨hvi, j + 1, s2, by simpa using hj, by omega, hne, hd, hs⟩

/-- Soundness of the vehicle scan: every candidate names a vehicle at its
index offset. -/
lemma candidatesFrom_sound (dist : Int → Int → Option ℚ) :
    ∀ (vehicles : List Vehicle) (vi0 : Nat) (ss : List SolverSurvivor) (c : Cand),
      c ∈ candidatesFrom dist vi0 vehicles ss →
      ∃ i veh, vehicles[i]? = some veh ∧ c.vi = vi0 + i ∧
        c ∈ candidatesFor dist veh (vi0 + i) 0 ss := by
  intro vehicles
  induction vehicles with
  | nil => intro vi0 ss c hc; cases hc
  | cons veh rest ih =>
    intro vi0 ss c hc
    rw [candidatesFrom] at hc
    rcases List.mem_append.mp hc with h | h
    · exact ⟨0, veh, by simp, by
        have := (candidatesFor_sound dist veh vi0 ss 0 c h).1
        omega, by simpa using h⟩
    · obtain ⟨i, veh2, hi, hvi, hmem⟩ := ih (vi0 + 1) ss c h
      refine ⟨i + 1, veh2, by simpa using hi, by omega, ?_⟩
      have : vi0 + 1 + i = vi0 + (i + 1) := by omega
      exact this ▸ hmem

/-- Combined candidate soundness: the indices address a real vehicle and a
real survivor, the pair is reachable with `current ≠ target`, and the score is
the dispatch formula. -/
lemma candidates_sound (dist : Int → Int → Option ℚ) (vehicles : List Vehicle)
    (ss : List SolverSurvivor) (c : Cand) (hc : c ∈ candidates dist vehicles ss) :
    ∃ veh s, vehicles[c.vi]? = some veh ∧ ss[c.si]? = some s ∧
      veh.current_node ≠ s.graph_id ∧
      dist veh.current_node s.graph_id = some c.d ∧
      c.score = (veh.total_distance + c.d) / ((s.urgency : ℚ) ^ 2 + (s.count : ℚ)) := by
  obtain ⟨i, veh, hi, hvi, hmem⟩ := candidatesFrom_sound dist vehicles 0 ss c hc
  obtain ⟨_, j, s, hj, hsi, hne, hd, hs⟩ := candidatesFor_sound dist veh (0 + i) ss 0 c hmem
  refine ⟨veh, s, ?_, ?_, hne, hd, hs⟩
  · have : c.vi = i := by omega
    exact this ▸ hi
  · have : c.si = j := by omega
    exact this ▸ hj

/-- No zero denominator is scored when every survivor has
`urgency² + count ≠ 0`. -/
lemma hasZeroDenom_eq_false (dist : Int → Int → Option ℚ) (vehicles : List Vehicle)
    (ss : List SolverSurvivor) (hpos : ∀ s ∈ ss, s.urgency ^ 2 + s.count ≠ 0) :
    hasZeroDenom dist vehicles ss = false := by
  by_contra hne
  have htrue : hasZeroDenom dist vehicles ss = true := by
    cases h : hasZeroDenom dist vehicles ss
    · exact absurd h hne
    · rfl
  rw [hasZeroDenom, List.any_eq_true] at htrue
  obtain ⟨veh, _, hs⟩ := htrue
  rw [List.any_eq_true] at hs
  obtain ⟨s, hsmem, hcond⟩ := hs
  simp only [Bool.and_eq_true, beq_iff_eq] at hcond
  exact hpos s hsmem hcond.2

/-- Under nonzero denominators the assignment loop always returns `.ok`. -/
lemma assignLoop_ok (dist : Int → Int → Option ℚ) (spath : Int → Int → List Int) :
    ∀ (fuel : Nat) (vehicles : List Vehicle) (ss : List SolverSurvivor),
      (∀ s ∈ ss, s.urgency ^ 2 + s.count ≠ 0) →
      ∃ r, assignLoop dist spath fuel vehicles ss = .ok r := by
  intro fuel
  induction fuel with
  | zero => intro vehicles ss _; exact ⟨(vehicles, ss), rfl⟩
  | succ fuel ih =>
    intro vehicles ss hpos
    rw [assignLoop]
    by_cases hemp : ss.isEmpty
    · rw [if_pos hemp]; exact ⟨(vehicles, ss), rfl⟩
    · rw [if_neg hemp, hasZeroDenom_eq_false dist vehicles ss hpos]
      simp only [Bool.false_eq_true, if_false]
      cases hsel : selectBest (candidates dist vehicles ss) with
      | none => exact ⟨(vehicles, ss), rfl⟩
      | some c =>
        exact ih (applyAssign spath vehicles c.vi c.si c.d ss) (ss.eraseIdx c.si)
          fun s hs => hpos s (mem_of_mem_eraseIdx_local ss c.si s hs)

/-- A survivor unreachable from every node is never selected, so it is still
in the remaining list whenever the loop returns. -/
lemma assignLoop_unreachable (dist : Int → Int → Option ℚ) (spath : Int → Int → List Int)
    (s0 : SolverSurvivor) (hunreach : ∀ n, dist n s0.graph_id = none) :
    ∀ (fuel : Nat) (vehicles : List Vehicle) (ss : List SolverSurvivor)
      (r : List Vehicle × List SolverSurvivor),
      s0 ∈ ss → assignLoop dist spath fuel vehicles ss = .ok r → s0 ∈ r.2 := by
  intro fuel
  induction fuel with
  | zero =>
    intro vehicles ss r hmem hrun
    rw [assignLoop] at hrun
    cases hrun
    exact hmem
  | succ fuel ih =>
    intro vehicles ss r hmem hrun
    rw [assignLoop] at hrun
    by_cases hemp : ss.isEmpty
    · rw [if_pos hemp] at hrun
      cases hrun
      exact hmem
    · rw [if_neg hemp] at hrun
      by_cases hzero : hasZeroDenom dist vehicles ss = true
      · rw [if_pos hzero] at hrun
        cases hrun
      · rw [if_neg hzero] at hrun
        cases hsel : selectBest (candidates dist vehicles ss) with
        | none =>
          rw [hsel] at hrun
          cases hrun
          exact hmem
        | some c =>
          rw [hsel] at hrun
          have hcand := (selectBest_spec _ c hsel).1
          obtain ⟨veh, s, _, hs, _, hd, _⟩ := candidates_sound dist vehicles ss c hcand
          have hne : s ≠ s0 := by
            intro heq
            rw [heq, hunreach veh.current_node] at hd
            cases hd
          exact ih _ _ r (mem_eraseIdx_of_ne ss c.si s s0 hs hne hmem) hrun

/-- Claim C2: the engine never raises for unreachable survivors — unreachable
pairs are skipped, a survivor with no path from anywhere is left in the
remaining set when the loop ends, and the call returns normally — while the
dispatch endpoint raises exactly for the structurally invalid empty pickup
list (checked before the solver runs). -/
theorem solve_routes_failure_semantics (dist : Int → Int → Option ℚ)
    (spath : Int → Int → List Int) (survivors : List SolverSurvivor)
    (pickups_ids : List Int)
    (hpos : ∀ s ∈ survivors, s.urgency ^ 2 + s.count ≠ 0) :
    dispatch dist spath survivors [] = .error "No pickups defined."
    ∧ (pickups_ids ≠ [] →
        ∃ paths, dispatch dist spath survivors pickups_ids = .ok paths)
    ∧ (∀ s0 ∈ survivors, (∀ n, dist n s0.graph_id = none) →
        ∃ r, assignLoop dist spath survivors.length (initVehicles pickups_ids) survivors
            = .ok r ∧ s0 ∈ r.2) := by
  refine ⟨rfl, ?_, ?_⟩
  · intro hne
    obtain ⟨r, hr⟩ := assignLoop_ok dist spath survivors.length
      (initVehicles pickups_ids) survivors hpos
    refine ⟨returnPhase dist spath pickups_ids r.1, ?_⟩
    rw [dispatch, if_neg (by simpa using hne), solve_routes, hr]
  · intro s0 hmem hunreach
    obtain ⟨r, hr⟩ := assignLoop_ok dist spath survivors.length
      (initVehicles pickups_ids) survivors hpos
    exact ⟨r, hr, assignLoop_unreachable dist spath s0 hunreach _ _ _ r hmem hr⟩

/-- Witness for C2: one pickup at node 7, one survivor at node 5 unreachable
from everywhere — dispatch returns `.ok` and the survivor stays unassigned,
while an empty pickup list is rejected. -/
theorem solve_routes_failure_semantics_witness :
    dispatch noPathDist sc1Spath [⟨5, 1, 1⟩] [] = .error "No pickups defined."
    ∧ ([7] ≠ ([] : List Int) →
        ∃ paths, dispatch noPathDist sc1Spath [⟨5, 1, 1⟩] [7] = .ok paths)
    ∧ (∀ s0 ∈ [(⟨5, 1, 1⟩ : SolverSurvivor)], (∀ n, noPathDist n s0.graph_id = none) →
        ∃ r, assignLoop noPathDist sc1Spath [(⟨5, 1, 1⟩ : SolverSurvivor)].length
            (initVehicles [7]) [⟨5, 1, 1⟩] = .ok r ∧ s0 ∈ r.2) :=
  solve_routes_failure_semantics noPathDist sc1Spath [⟨5, 1, 1⟩] [7] (by decide)

/-- Claim C1 (amended): every iteration of the dispatch loop assigns the
(vehicle, survivor) pair minimising
`score = (total_distance + path_distance) / (urgency² + count)` over all
reachable pairs with `current_node ≠ survivor.node` (the selected pair is a
candidate, scores at most every candidate, and the loop commits exactly that
pair); in the one-pickup scenario with S1 (urgency 5, count 1) and S2
(urgency 1, count 10) both at distance 100, S1 is selected first with score
`100/26 ≈ 3.85` and the returned route visits S1's node before S2's. -/
theorem solve_routes_min_score_selection :
    (∀ (dist : Int → Int → Option ℚ) (vehicles : List Vehicle)
        (ss : List SolverSurvivor) (c : Cand),
      selectBest (candidates dist vehicles ss) = some c →
      (c ∈ candidates dist vehicles ss
        ∧ ∀ c2 ∈ candidates dist vehicles ss, c.score ≤ c2.score)
      ∧ ∃ veh s, vehicles[c.vi]? = some veh ∧ ss[c.si]? = some s ∧
          veh.current_node ≠ s.graph_id ∧
          dist veh.current_node s.graph_id = some c.d ∧
          c.score = (veh.total_distance + c.d) / ((s.urgency : ℚ) ^ 2 + (s.count : ℚ)))
    ∧ (∀ (dist : Int → Int → Option ℚ) (spath : Int → Int → List Int) (fuel : Nat)
        (vehicles : List Vehicle) (ss : List SolverSurvivor) (c : Cand),
        ss.isEmpty = false → hasZeroDenom dist vehicles ss = false →
        selectBest (candidates dist vehicles ss) = some c →
        assignLoop dist spath (fuel + 1) vehicles ss
          = assignLoop dist spath fuel
              (applyAssign spath vehicles c.vi c.si c.d ss) (ss.eraseIdx c.si))
    ∧ selectBest (candidates sc1Dist (initVehicles [1]) [sc1S1, sc1S2])
        = some ⟨0, 0, 100 / 26, 100⟩
    ∧ solve_routes sc1Dist sc1Spath [sc1S1, sc1S2] [1] = .ok [[1, 2, 3, 1]] := by
  refine ⟨?_, ?_, ?_, ?_⟩
  · intro dist vehicles ss c hsel
    exact ⟨selectBest_spec _ c hsel,
      candidates_sound dist vehicles ss c (selectBest_spec _ c hsel).1⟩
  · intro dist spath fuel vehicles ss c hemp hzero hsel
    rw [assignLoop, if_neg (by simp [hemp]), hzero]
    simp only [Bool.false_eq_true, if_false, hsel]
  · norm_num [selectBest, candidates, candidatesFrom, candidatesFor, initVehicles,
      sc1Dist, sc1S1, sc1S2]
  · norm_num [solve_routes, assignLoop, selectBest, candidates, candidatesFrom,
      candidatesFor, initVehicles, sc1Dist, sc1Spath, sc1S1, sc1S2, hasZeroDenom,
      applyAssign, returnPhase, returnForVehicle, List.range_succ, List.range_zero,
      List.zip_cons_cons, List.zip_nil_right, List.filter, List.set]

/-- Witness for C1: the minimality part applied to the concrete scenario
selection. -/
theorem solve_routes_min_score_selection_witness :
    (⟨0, 0, 100 / 26, 100⟩ : Cand) ∈ candidates sc1Dist (initVehicles [1]) [sc1S1, sc1S2]
    ∧ ∀ c2 ∈ candidates sc1Dist (initVehicles [1]) [sc1S1, sc1S2],
        (⟨0, 0, 100 / 26, 100⟩ : Cand).score ≤ c2.score :=
  (solve_routes_min_score_selection.1 sc1Dist (initVehicles [1]) [sc1S1, sc1S2]
    ⟨0, 0, 100 / 26, 100⟩ solve_routes_min_score_selection.2.2.1).1

/-- Counterexample for C1 as stated: the code scores S1 as
`100 / (5² + 1) = 100/26 ≈ 3.85`, not 4 — the claim's worked value `100/25`
drops the `+ count` term of the denominator. -/
theorem solve_routes_score_value_counterexample :
    selectBest (candidates sc1Dist (initVehicles [1]) [sc1S1, sc1S2])
      = some ⟨0, 0, 100 / 26, 100⟩
    ∧ (100 / 26 : ℚ) ≠ 4 := by
  constructor
  · norm_num [selectBest, candidates, candidatesFrom, candidatesFor, initVehicles,
      sc1Dist, sc1S1, sc1S2]
  · norm_num

end RescuNet
